import Mathlib

/-!
# Verification of the collabcanva shared-shape sync, locking and history core

This file gives a shallow embedding, in Lean 4, of the concurrent
shape-editing core of the collabcanva repository:

* `src/contexts/CanvasContext.tsx` — `Shape` data model, `selectShape`,
  the `onRestore` callback wired into the history hook;
* `src/hooks/useCanvasSync.ts` — two revisions of the sync adapter
  (`addShape`, `updateShape`, `deleteShape`, `lockShape`, `unlockShape`);
* `src/hooks/useHistory.ts` — two revisions of the history engine
  (`pushState`, `undo`, `redo`, the `isRestoringRef` re-entrancy guard);
* `src/utils/constants.ts` — the timing constants;
* `src/components/Canvas/Shape.tsx` — the lock-staleness predicate.

The remote Shape Store service (`src/services/canvas.ts`) is not part of
the repository snapshot; where a property depends on it, the remote
operation is modelled from the specification's interface contract and the
definition's doc comment says so explicitly.

Remote effects are made observable by having each adapter operation return
the list of remote calls it issues; JavaScript timestamps are embedded as
`Nat` milliseconds, with lock-age arithmetic carried out in `Int` exactly
as JavaScript number subtraction behaves on such values.
-/

/-- The `Shape` record from `CanvasContext.tsx` (`export interface Shape`).
Optional TypeScript fields are embedded as `Option`; numbers used by the
claims are integers (pixel coordinates, millisecond timestamps). -/
structure Shape where
  id : String
  type : String
  x : Int
  y : Int
  width : Int
  height : Int
  rotation : Int
  fill : String
  zIndex : Int
  text : Option String
  createdBy : Option String
  createdAt : Option Nat
  lastModifiedBy : Option String
  isLocked : Bool
  lockedBy : Option String
  lockedAt : Option Nat
deriving Repr, DecidableEq

/-- A `Partial<Shape>` payload: every field optional, `none` meaning
"field absent from the partial update object". -/
structure ShapeUpdate where
  x : Option Int := none
  y : Option Int := none
  width : Option Int := none
  height : Option Int := none
  rotation : Option Int := none
  fill : Option String := none
  zIndex : Option Int := none
  text : Option String := none
  lastModifiedBy : Option String := none
deriving Repr, DecidableEq

/-- The remote calls a sync-adapter operation can issue against the Shape
Store service (`createShape` / `updateShape` / `deleteShape` /
`lockShape` / `unlockShape` of `services/canvas`). -/
inductive RemoteCall where
  | create (s : Shape)
  | update (id : String) (u : ShapeUpdate)
  | remove (id : String)
  | lock (id : String) (uid : String)
  | unlock (id : String)
deriving Repr, DecidableEq

/-- `SHAPE_LOCK_TIMEOUT` from `src/utils/constants.ts` line 42:
`export const SHAPE_LOCK_TIMEOUT = 5000; // ms (5 seconds)`. -/
def SHAPE_LOCK_TIMEOUT : Nat := 5000

/-- The lock staleness threshold: the literal `10000` (ms) used in
`useCanvasSync.ts` (`if (lockAge > 10000)`) and in `Shape.tsx`
(`(Date.now() - shape.lockedAt) > 10000`). -/
def STALE_LOCK_MS : Nat := 10000

/-- `MAX_HISTORY` from `src/hooks/useHistory.ts` line 9. -/
def MAX_HISTORY : Nat := 50

/-- The pending safety-unlock timers (`lockTimeoutsRef`, a JS
`Map<string, number>` from shape id to armed timeout); we record the
delay in milliseconds the timeout was armed with. `Map.set` replaces any
prior entry for the same key. -/
def setTimer (timers : List (String × Nat)) (id : String) (d : Nat) :
    List (String × Nat) :=
  (id, d) :: timers.filter (fun p => !(p.1 == id))

/-- `clearTimeout` + `Map.delete` for a shape id. -/
def clearTimer (timers : List (String × Nat)) (id : String) :
    List (String × Nat) :=
  timers.filter (fun p => !(p.1 == id))

/-- Look up the armed delay for a shape id. -/
def lookupTimer (timers : List (String × Nat)) (id : String) : Option Nat :=
  (timers.find? (fun p => p.1 == id)).map (·.2)

/-- The lock-staleness predicate of `Shape.tsx` (first revision, lines
24-25): `shape.isLocked && shape.lockedAt && (Date.now() - shape.lockedAt)
> 10000`.  A `lockedAt` of `0` is falsy in JavaScript, so it is treated
as absent. -/
def lockIsStale (s : Shape) (now : Nat) : Bool :=
  s.isLocked &&
    (match s.lockedAt with
     | none => false
     | some t =>
       if t = 0 then false
       else decide ((STALE_LOCK_MS : Int) < (now : Int) - (t : Int)))

/-- `shape.lockedAt || now` from `useCanvasSync.ts` line 163
(`const lockAge = now - (shape.lockedAt || now)`); `0` and `null` are
both falsy. -/
def lockedAtOr (s : Shape) (now : Nat) : Int :=
  match s.lockedAt with
  | none => (now : Int)
  | some t => if t = 0 then (now : Int) else (t : Int)

/-! ## Sync adapter, first revision of `useCanvasSync.ts`

The `userId : Option String` argument is `none` exactly when the
JavaScript guard `if (!user)` / `if (!userId)` fires (no authenticated
user, or a user object without a uid). Each operation returns the remote
calls it issues; `lockShape` additionally returns its resolved boolean
and the updated timer map. -/

/-- `addShape` (lines 56-97): guarded on the user, then issues one
`createShape` call with `createdBy`/`createdAt` stamped on. -/
def addShape₁ (userId : Option String) (s : Shape) (now : Nat) :
    List RemoteCall :=
  match userId with
  | none => []
  | some uid =>
    [RemoteCall.create { s with createdBy := some uid, createdAt := some now }]

/-- The update payload always carries `lastModifiedBy: userId`
(`useCanvasSync.ts` lines 114-117 and 346-349). -/
def setLastModified (u : ShapeUpdate) (uid : String) : ShapeUpdate :=
  { u with lastModifiedBy := some uid }

/-- `updateShape`, first revision (lines 100-124): rejects the update with
no remote call when the target is locked by a different user; issues the
`updateShape` service call otherwise (also when the id is absent). -/
def updateShape₁ (shapes : List Shape) (userId : Option String)
    (shapeId : String) (u : ShapeUpdate) : List RemoteCall :=
  match userId with
  | none => []
  | some uid =>
    match shapes.find? (fun s => s.id == shapeId) with
    | some s =>
      if s.isLocked && !(s.lockedBy == some uid) then []
      else [RemoteCall.update shapeId (setLastModified u uid)]
    | none => [RemoteCall.update shapeId (setLastModified u uid)]

/-- `deleteShape`, first revision (lines 127-148): same locked-by-other
guard, then one `deleteShape` service call. -/
def deleteShape₁ (shapes : List Shape) (userId : Option String)
    (shapeId : String) : List RemoteCall :=
  match userId with
  | none => []
  | some uid =>
    match shapes.find? (fun s => s.id == shapeId) with
    | some s =>
      if s.isLocked && !(s.lockedBy == some uid) then []
      else [RemoteCall.remove shapeId]
    | none => [RemoteCall.remove shapeId]

/-- Result of a `lockShape` call: the resolved boolean, the remote calls
issued, and the timer map after the call. -/
structure LockResult where
  granted : Bool
  calls : List RemoteCall
  timers : List (String × Nat)
deriving Repr, DecidableEq

/-- `lockShape`, first revision (lines 151-192). If the shape is locked
by a different user, the lock age decides: stale (`> 10000` ms) means
force-unlock then lock; fresh means resolve `false` with no calls.
On every successful acquisition a 5000 ms safety auto-unlock timeout is
armed (the hook writes the literal `5000`). -/
def lockShape₁ (shapes : List Shape) (userId : Option String)
    (shapeId : String) (now : Nat) (timers : List (String × Nat)) :
    LockResult :=
  match userId with
  | none => ⟨false, [], timers⟩
  | some uid =>
    match shapes.find? (fun s => s.id == shapeId) with
    | some s =>
      if s.isLocked && !(s.lockedBy == some uid) then
        if (10000 : Int) < (now : Int) - lockedAtOr s now then
          ⟨true, [RemoteCall.unlock shapeId, RemoteCall.lock shapeId uid],
            setTimer timers shapeId 5000⟩
        else
          ⟨false, [], timers⟩
      else
        ⟨true, [RemoteCall.lock shapeId uid], setTimer timers shapeId 5000⟩
    | none => ⟨true, [RemoteCall.lock shapeId uid], setTimer timers shapeId 5000⟩

/-- `unlockShape`, first revision (lines 195-219): clears the pending
safety timeout, then issues the `unlockShape` service call only when this
client owns the lock. -/
def unlockShape₁ (shapes : List Shape) (userId : Option String)
    (shapeId : String) (timers : List (String × Nat)) :
    List RemoteCall × List (String × Nat) :=
  match userId with
  | none => ([], timers)
  | some uid =>
    let timers2 := clearTimer timers shapeId
    match shapes.find? (fun s => s.id == shapeId) with
    | some s =>
      (if s.lockedBy == some uid then [RemoteCall.unlock shapeId] else [],
       timers2)
    | none => ([], timers2)

/-! ## Sync adapter, second revision of `useCanvasSync.ts` (after the
separator): `updateShape`/`deleteShape` no longer check the lock state
("Don't check lock status here - rely on UI to prevent editing locked
shapes"). -/

/-- `updateShape`, second revision (lines 337-356): no lock check. -/
def updateShape₂ (userId : Option String) (shapeId : String)
    (u : ShapeUpdate) : List RemoteCall :=
  match userId with
  | none => []
  | some uid => [RemoteCall.update shapeId (setLastModified u uid)]

/-- `deleteShape`, second revision (lines 359-374): no lock check. -/
def deleteShape₂ (userId : Option String) (shapeId : String) :
    List RemoteCall :=
  match userId with
  | none => []
  | some _ => [RemoteCall.remove shapeId]

/-! ## History engine, `useHistory.ts`

A `HistoryState` is one snapshot; the engine state carries the stack, the
cursor and the `isRestoringRef` flag. The claims speak about the engine
after its one-time initialization effect (`history = [initialState]`,
`currentIndex = 0`), so the embedding starts there. -/

/-- `interface HistoryState` from `useHistory.ts`. -/
structure HistoryState where
  shapes : List Shape
  selectedIds : List String
deriving Repr, DecidableEq

/-- The state of `useHistory`: the `history` array, `currentIndex`, and
the `isRestoringRef` re-entrancy flag. -/
structure HistoryEngine where
  history : List HistoryState
  currentIndex : Nat
  isRestoring : Bool
deriving Repr, DecidableEq

/-- The initialization effect (`useHistory.ts` lines 22-33 / 166-181):
the stack starts as `[initialState]` with the cursor at `0`. -/
def initEngine (s : HistoryState) : HistoryEngine :=
  { history := [s], currentIndex := 0, isRestoring := false }

/-- `pushState`, second revision (`useHistory.ts` lines 190-242):
suppressed while restoring; otherwise truncates the redo tail, appends
the snapshot, drops the oldest entry (`shift()`) when the stack exceeds
`MAX_HISTORY`, and sets the cursor to the new last position. -/
def pushState₂ (e : HistoryEngine) (snap : HistoryState) : HistoryEngine :=
  if e.isRestoring then e
  else
    let h1 := e.history.take (e.currentIndex + 1) ++ [snap]
    let h2 := if MAX_HISTORY < h1.length then h1.tail else h1
    { history := h2, currentIndex := h2.length - 1,
      isRestoring := e.isRestoring }

/-- `pushState`, first revision (`useHistory.ts` lines 36-71). The
`setCurrentIndex` updater computes a capped stack and a shifted index,
but the value actually stored by the outer `setHistory` updater is
`prev.slice(0, currentIndex + 1).concat([newState])` — the cap is never
applied to the stored stack. -/
def pushState₁ (e : HistoryEngine) (snap : HistoryState) : HistoryEngine :=
  if e.isRestoring then e
  else
    let inner := e.history.take (e.currentIndex + 1) ++ [snap]
    let newIndex :=
      if MAX_HISTORY < inner.length then min e.currentIndex (MAX_HISTORY - 1)
      else e.currentIndex + 1
    { history := e.history.take (e.currentIndex + 1) ++ [snap],
      currentIndex := newIndex, isRestoring := e.isRestoring }

/-- `undo` (`useHistory.ts` lines 74-93 / 256-294): when the cursor is
past the first entry, decrement it, raise the re-entrancy flag and hand
the snapshot at the new cursor to the restore callback (returned here as
the second component). Both revisions have the same stack effect; the
second revision's defensive existence check is the `getElem?` match. -/
def undoE (e : HistoryEngine) : HistoryEngine × Option HistoryState :=
  if 0 < e.currentIndex then
    match e.history[e.currentIndex - 1]? with
    | some st =>
      ({ e with currentIndex := e.currentIndex - 1, isRestoring := true },
       some st)
    | none => (e, none)
  else (e, none)

/-- `redo` (`useHistory.ts` lines 96-115 / 297-335): symmetric to
`undo`, moving the cursor forward while it is before the last entry. -/
def redoE (e : HistoryEngine) : HistoryEngine × Option HistoryState :=
  if e.currentIndex < e.history.length - 1 then
    match e.history[e.currentIndex + 1]? with
    | some st =>
      ({ e with currentIndex := e.currentIndex + 1, isRestoring := true },
       some st)
    | none => (e, none)
  else (e, none)

/-- The `setTimeout(..., 100)` that clears `isRestoringRef` after a
restore settles. -/
def settleE (e : HistoryEngine) : HistoryEngine :=
  { e with isRestoring := false }

/-- The operations a client can drive the history engine with. -/
inductive HistOp where
  | push (snap : HistoryState)
  | undo
  | redo
  | settle
deriving Repr

/-- One engine step (second-revision `pushState`). -/
def stepE (e : HistoryEngine) (op : HistOp) : HistoryEngine :=
  match op with
  | .push snap => pushState₂ e snap
  | .undo => (undoE e).1
  | .redo => (redoE e).1
  | .settle => settleE e

/-- Run a sequence of operations. -/
def runE (e : HistoryEngine) (ops : List HistOp) : HistoryEngine :=
  ops.foldl stepE e

/-- The history-stack invariant of the spec: a nonempty stack of at most
`MAX_HISTORY` entries with the cursor inside `[0, length - 1]`. -/
def histInv (e : HistoryEngine) : Prop :=
  1 ≤ e.history.length ∧ e.history.length ≤ MAX_HISTORY ∧
    e.currentIndex < e.history.length

instance (e : HistoryEngine) : Decidable (histInv e) := by
  unfold histInv; infer_instance

theorem histInv_push₂ {e : HistoryEngine} (h : histInv e)
    (snap : HistoryState) : histInv (pushState₂ e snap) := by
  obtain ⟨h1, h2, h3⟩ := h
  unfold pushState₂
  split
  · exact ⟨h1, h2, h3⟩
  · simp only [histInv, List.length_tail, List.length_append,
      List.length_take, List.length_cons, List.length_nil]
    split <;>
      simp_all only [histInv, List.length_tail, List.length_append,
        List.length_take, List.length_cons, List.length_nil] <;>
      omega

theorem histInv_undo {e : HistoryEngine} (h : histInv e) :
    histInv (undoE e).1 := by
  obtain ⟨h1, h2, h3⟩ := h
  unfold undoE
  split
  · split <;> exact ⟨h1, h2, by simp only []; omega⟩
  · exact ⟨h1, h2, h3⟩

theorem histInv_redo {e : HistoryEngine} (h : histInv e) :
    histInv (redoE e).1 := by
  obtain ⟨h1, h2, h3⟩ := h
  unfold redoE
  split
  · split
    · refine ⟨h1, h2, ?_⟩
      simp only []
      omega
    · exact ⟨h1, h2, h3⟩
  · exact ⟨h1, h2, h3⟩

theorem histInv_step {e : HistoryEngine} (h : histInv e) (op : HistOp) :
    histInv (stepE e op) := by
  cases op with
  | push snap => exact histInv_push₂ h snap
  | undo => exact histInv_undo h
  | redo => exact histInv_redo h
  | settle => exact ⟨h.1, h.2.1, h.2.2⟩

theorem histInv_run {e : HistoryEngine} (h : histInv e)
    (ops : List HistOp) : histInv (runE e ops) := by
  induction ops generalizing e with
  | nil => exact h
  | cons op ops ih => exact ih (histInv_step h op)

theorem histInv_init (s : HistoryState) : histInv (initEngine s) :=
  ⟨by simp [initEngine], by simp [initEngine, MAX_HISTORY],
    by simp [initEngine]⟩

/-! ## A small JavaScript heap, for the deep-copy claim

In the browser, `currentShapes` is an array of *references* to mutable
shape objects. To state that `JSON.parse(JSON.stringify(currentShapes))`
(`useHistory.ts` lines 26/46/169/214) stores a deep copy, we model the
object heap explicitly: shape objects live at numeric addresses and the
live list is a list of addresses. Dereferencing at push time is the deep
copy; an embedding of an implementation that stored the reference array
itself would have kept `List Nat` in the snapshot instead. -/

/-- The object heap: a shape object per address. -/
abbrev Heap := List Shape

/-- Dereference the live reference list — the value
`JSON.parse(JSON.stringify(currentShapes))` denotes. -/
def derefAll (h : Heap) (live : List Nat) : List Shape :=
  live.filterMap (fun a => h[a]?)

/-- In-place mutation of the shape object stored at address `a`
(e.g. Konva writing `x`/`y` during a drag). -/
def heapMutate (h : Heap) (a : Nat) (f : Shape → Shape) : Heap :=
  match h[a]? with
  | some s => h.set a (f s)
  | none => h

/-- A client world: the heap, the live reference list, the local
selection, and the history engine. -/
structure World where
  heap : Heap
  live : List Nat
  selection : List String
  engine : HistoryEngine

/-- Mutations of the live data that can happen after a snapshot was
stored: mutate a shape object in place, replace the live list, or change
the selection. None of them goes through the history engine. -/
inductive MutOp where
  | mutate (a : Nat) (f : Shape → Shape)
  | setLive (live : List Nat)
  | setSelection (sel : List String)

/-- Apply one mutation to the world. -/
def worldMutStep (w : World) (op : MutOp) : World :=
  match op with
  | .mutate a f => { w with heap := heapMutate w.heap a f }
  | .setLive l => { w with live := l }
  | .setSelection sel => { w with selection := sel }

/-- `pushState` as called by the owning client: the snapshot is the
dereferenced (deep-copied) value of the live list and selection at call
time. -/
def worldPush (w : World) : World :=
  { w with engine :=
      pushState₂ w.engine ⟨derefAll w.heap w.live, w.selection⟩ }

/-- The history initialization effect, which also deep-copies
(`useHistory.ts` lines 25-28). -/
def worldInit (w : World) : World :=
  { w with engine := initEngine ⟨derefAll w.heap w.live, w.selection⟩ }

/-! ## The composed client of `CanvasContext.tsx` -/

/-- The per-client application state: the sync-managed shape list, the
local selection, and the history engine. -/
structure AppState where
  shapes : List Shape
  selectedIds : List String
  engine : HistoryEngine
deriving Repr, DecidableEq

/-- The restore callback `CanvasProvider` passes to `useHistory`
(`CanvasContext.tsx` lines 108-115): it restores the *selection* from
the snapshot and deliberately leaves the shape list alone —
"`// Note: In a real implementation, we'd need to restore shapes to the
sync system. This is a limitation of the current architecture`". -/
def onRestoreCtx (st : AppState) (_restoredShapes : List Shape)
    (restoredSel : List String) : AppState :=
  { st with selectedIds := restoredSel }

/-- A locally committed mutation as `CanvasContext.tsx` performs it: the
sync layer echoes the new shape list, then `setTimeout(() =>
pushState(), 0)` records a snapshot of it. -/
def commitMutation (st : AppState) (newShapes : List Shape) : AppState :=
  { shapes := newShapes, selectedIds := st.selectedIds,
    engine := pushState₂ st.engine ⟨newShapes, st.selectedIds⟩ }

/-- `undo()` at the `CanvasContext` level: step the engine, then feed the
returned snapshot to `onRestoreCtx`. -/
def appUndo (st : AppState) : AppState :=
  match undoE st.engine with
  | (e, some snap) => onRestoreCtx { st with engine := e } snap.shapes snap.selectedIds
  | (e, none) => { st with engine := e }

/-- `redo()` at the `CanvasContext` level. -/
def appRedo (st : AppState) : AppState :=
  match redoE st.engine with
  | (e, some snap) => onRestoreCtx { st with engine := e } snap.shapes snap.selectedIds
  | (e, none) => { st with engine := e }

/-! ## The remote Shape Store, modelled from the spec

`src/services/canvas.ts` (the Firestore-backed service the hooks import)
is not part of the repository snapshot, so the remote collection
semantics below are modelled from the specification's interface contract
(§6) and its remote-layer guarantees (§4.2). -/

/-- Modelled from the spec: `remove(scopeKey, id)` /
"`deleteShape(id)` — removes the shape remotely. No-op if already
absent." The missing code is `deleteShape` of `src/services/canvas.ts`. -/
def remoteRemove (coll : List Shape) (id : String) : List Shape :=
  coll.filter (fun s => !(s.id == id))

/-- The lock-field write of a successful acquisition, applied to the
matching document. -/
def applyLockWrite (id uid : String) (now : Nat) (sh : Shape) : Shape :=
  if sh.id == id then
    { sh with
        isLocked := true
        lockedBy := some uid
        lockedAt := some now }
  else sh

/-- Modelled from the spec: `acquireLock(scopeKey, id, userId) ->
Promise<bool success>`, the conditional write of §4.2 ("exactly one
`lockShape` call succeeds at the remote layer"). The missing code is
`lockShape` of `src/services/canvas.ts`. Acquisition succeeds unless the
shape is currently locked fresh by a different user; on success the lock
fields are written. -/
def remoteAcquireLock (coll : List Shape) (id : String) (uid : String)
    (now : Nat) : List Shape × Bool :=
  match coll.find? (fun s => s.id == id) with
  | none => (coll, false)
  | some s =>
    if s.isLocked && !(s.lockedBy == some uid) && !(lockIsStale s now) then
      (coll, false)
    else
      (coll.map (applyLockWrite id uid now), true)

/-- `LockedByMe` as observed from a shape collection (`Shape.tsx` line
29: `shape.isLocked && shape.lockedBy === userId`). -/
def isLockedByMe (coll : List Shape) (id : String) (uid : String) : Bool :=
  match coll.find? (fun s => s.id == id) with
  | some s => s.isLocked && s.lockedBy == some uid
  | none => false

/-- `CanvasContext.selectShape` (replace-selection path, lines 205-213):
the selection becomes `[id]` unconditionally — `lockShapeSync(id)` is
fired afterwards and its promise is never awaited, so the lock outcome
cannot influence the selection. -/
def selectShapeLocal (id : String) : List String := [id]

/-- Outcome of a same-tick contention round between two clients. -/
structure RaceRound where
  finalColl : List Shape
  firstGranted : Bool
  secondGranted : Bool
  selFirst : List String
  selSecond : List String
deriving Repr, DecidableEq

/-- Two clients click the same shape in the same tick: each runs
`selectShape` locally (selection set, lock request fired), and the
remote store serializes the two conditional lock writes in arrival
order. -/
def selectRound (coll : List Shape) (id : String)
    (uidFirst uidSecond : String) (now : Nat) : RaceRound :=
  let r1 := remoteAcquireLock coll id uidFirst now
  let r2 := remoteAcquireLock r1.1 id uidSecond now
  { finalColl := r2.1, firstGranted := r1.2, secondGranted := r2.2,
    selFirst := selectShapeLocal id, selSecond := selectShapeLocal id }

/-- The composed delete path for one client whose local list mirrors the
remote collection: the first-revision hook guard
(`useCanvasSync.ts` lines 127-148) in front of the spec-modelled remote
removal. -/
def deleteShapeFull (coll : List Shape) (uid : String) (id : String) :
    List Shape :=
  match coll.find? (fun s => s.id == id) with
  | some s =>
    if s.isLocked && !(s.lockedBy == some uid) then coll
    else remoteRemove coll id
  | none => remoteRemove coll id

/-! ## General helper lemmas -/

theorem find?_filter_not {α : Type} (l : List α) (p : α → Bool) :
    (l.filter (fun a => !(p a))).find? p = none := by
  rw [List.find?_eq_none]
  intro x hx
  have h := List.of_mem_filter hx
  simp_all

theorem find?_map_of_pred_inv {α : Type} (l : List α) (p : α → Bool)
    (f : α → α) (hf : ∀ a, p (f a) = p a) :
    (l.map f).find? p = (l.find? p).map f := by
  induction l with
  | nil => rfl
  | cons a t ih =>
    by_cases h : p a = true
    · rw [List.map_cons, List.find?_cons_of_pos _ (by rw [hf]; exact h),
        List.find?_cons_of_pos _ h, Option.map_some']
    · rw [List.map_cons,
        List.find?_cons_of_neg _ (by rw [hf]; simp [h]),
        List.find?_cons_of_neg _ (by simp [h]), ih]

theorem remoteRemove_find? (coll : List Shape) (id : String) :
    (remoteRemove coll id).find? (fun s => s.id == id) = none :=
  find?_filter_not coll (fun s => s.id == id)

theorem remoteRemove_idem (coll : List Shape) (id : String) :
    remoteRemove (remoteRemove coll id) id = remoteRemove coll id := by
  unfold remoteRemove
  rw [List.filter_filter]
  simp

theorem lookupTimer_clearTimer (timers : List (String × Nat)) (id : String) :
    lookupTimer (clearTimer timers id) id = none := by
  unfold lookupTimer clearTimer
  rw [find?_filter_not]
  rfl

/-! ## Concrete fixtures used by witnesses and counterexamples -/

/-- An unlocked red rectangle, as in the spec's basic-convergence
scenario. -/
def rectRed : Shape :=
  { id := "a", type := "rectangle", x := 100, y := 100, width := 50,
    height := 50, rotation := 0, fill := "#ff0000", zIndex := 0,
    text := none, createdBy := none, createdAt := none,
    lastModifiedBy := none, isLocked := false, lockedBy := none,
    lockedAt := none }

/-- A shape locked by `userA` at t = 1000 ms, as in the spec's stale-lock
scenario. -/
def shapeLockedA : Shape :=
  { rectRed with
      id := "s1"
      isLocked := true
      lockedBy := some "userA"
      lockedAt := some 1000 }

/-- An unlocked shape with id `s1`. -/
def shapeFree : Shape := { rectRed with id := "s1" }

/-- The empty snapshot. -/
def snapEmpty : HistoryState := ⟨[], []⟩

/-- A partial update moving a shape. -/
def moveUpdate : ShapeUpdate := { x := some 200 }

/-! ## C1 — stale-lock override in `lockShape` -/

/-- C1: for a shape locked by another user, `lockShape` force-unlocks and
then locks (resolving `true`) exactly when `now - lockedAt` exceeds the
10-second staleness threshold; when the other user's lock is fresh it
resolves `false` and issues no remote call at all. -/
theorem C1_stale_lock_override (shapes : List Shape)
    (uid other shapeId : String) (now t : Nat) (s : Shape)
    (timers : List (String × Nat))
    (hfind : shapes.find? (fun sh => sh.id == shapeId) = some s)
    (hlocked : s.isLocked = true)
    (hby : s.lockedBy = some other)
    (hne : other ≠ uid)
    (hat : s.lockedAt = some t)
    (ht : 0 < t) :
    ((10000 : Int) < (now : Int) - (t : Int) →
      lockShape₁ shapes (some uid) shapeId now timers =
        ⟨true, [RemoteCall.unlock shapeId, RemoteCall.lock shapeId uid],
          setTimer timers shapeId 5000⟩) ∧
    ((now : Int) - (t : Int) ≤ 10000 →
      lockShape₁ shapes (some uid) shapeId now timers =
        ⟨false, [], timers⟩) := by
  have hcond : (s.isLocked && !(s.lockedBy == some uid)) = true := by
    simp [hlocked, hby, hne]
  have hbase : lockedAtOr s now = (t : Int) := by
    simp [lockedAtOr, hat, Nat.pos_iff_ne_zero.mp ht]
  constructor
  · intro hstale
    simp [lockShape₁, hfind, hcond, hbase, hstale]
  · intro hfresh
    simp [lockShape₁, hfind, hcond, hbase, not_lt.mpr hfresh]

theorem C1_witness :
    lockShape₁ [shapeLockedA] (some "userB") "s1" 20000 [] =
      ⟨true, [RemoteCall.unlock "s1", RemoteCall.lock "s1" "userB"],
        [("s1", 5000)]⟩ ∧
    lockShape₁ [shapeLockedA] (some "userB") "s1" 5000 [] =
      ⟨false, [], []⟩ := by
  constructor
  · exact (C1_stale_lock_override [shapeLockedA] "userB" "userA" "s1"
      20000 1000 shapeLockedA [] (by decide) (by decide) (by decide)
      (by decide) (by decide) (by decide)).1 (by decide)
  · exact (C1_stale_lock_override [shapeLockedA] "userB" "userA" "s1"
      5000 1000 shapeLockedA [] (by decide) (by decide) (by decide)
      (by decide) (by decide) (by decide)).2 (by decide)

/-! ## C8 — safety auto-unlock timer -/

theorem lockShape₁_timers_of_granted (shapes : List Shape)
    (uid shapeId : String) (now : Nat) (timers : List (String × Nat))
    (h : (lockShape₁ shapes (some uid) shapeId now timers).granted = true) :
    (lockShape₁ shapes (some uid) shapeId now timers).timers =
      setTimer timers shapeId 5000 := by
  cases hf : shapes.find? (fun s => s.id == shapeId) with
  | none => simp [lockShape₁, hf]
  | some s =>
    by_cases h1 : (s.isLocked && !(s.lockedBy == some uid)) = true
    · by_cases h2 : (10000 : Int) < (now : Int) - lockedAtOr s now
      · simp [lockShape₁, hf, h1, h2]
      · simp [lockShape₁, hf, h1, h2] at h
    · simp [lockShape₁, hf, h1]

theorem unlockShape₁_timers (shapes : List Shape) (uid shapeId : String)
    (timers : List (String × Nat)) :
    (unlockShape₁ shapes (some uid) shapeId timers).2 =
      clearTimer timers shapeId := by
  cases hf : shapes.find? (fun s => s.id == shapeId) <;>
    simp [unlockShape₁, hf]

/-- C8: every successful `lockShape` acquisition arms a safety
auto-unlock timer of 5000 ms for that shape — the value of the
`SHAPE_LOCK_TIMEOUT` constant, which is below the 10-second staleness
threshold — and a subsequent explicit `unlockShape` cancels the pending
timer. -/
theorem C8_safety_unlock_timer (shapes : List Shape)
    (uid shapeId : String) (now : Nat) (timers : List (String × Nat))
    (h : (lockShape₁ shapes (some uid) shapeId now timers).granted = true) :
    lookupTimer (lockShape₁ shapes (some uid) shapeId now timers).timers
        shapeId = some SHAPE_LOCK_TIMEOUT ∧
    SHAPE_LOCK_TIMEOUT = 5000 ∧
    SHAPE_LOCK_TIMEOUT < STALE_LOCK_MS ∧
    lookupTimer (unlockShape₁ shapes (some uid) shapeId
        (lockShape₁ shapes (some uid) shapeId now timers).timers).2
        shapeId = none := by
  rw [lockShape₁_timers_of_granted shapes uid shapeId now timers h]
  refine ⟨?_, rfl, by decide, ?_⟩
  · simp [lookupTimer, setTimer, SHAPE_LOCK_TIMEOUT]
  · rw [unlockShape₁_timers, lookupTimer_clearTimer]

theorem C8_witness :
    (lockShape₁ [shapeFree] (some "userB") "s1" 2000 []).granted = true ∧
    lookupTimer (lockShape₁ [shapeFree] (some "userB") "s1" 2000 []).timers
        "s1" = some SHAPE_LOCK_TIMEOUT ∧
    lookupTimer (unlockShape₁ [shapeFree] (some "userB") "s1"
        (lockShape₁ [shapeFree] (some "userB") "s1" 2000 []).timers).2
        "s1" = none := by
  have h := C8_safety_unlock_timer [shapeFree] "userB" "s1" 2000 []
    (by decide)
  exact ⟨by decide, h.1, h.2.2.2⟩

/-! ## C9 — idempotent delete -/

theorem deleteShapeFull_blocked {coll : List Shape} {uid id : String}
    {s : Shape} (h : coll.find? (fun sh => sh.id == id) = some s)
    (hc : (s.isLocked && !(s.lockedBy == some uid)) = true) :
    deleteShapeFull coll uid id = coll := by
  unfold deleteShapeFull
  rw [h]
  simp [hc]

theorem deleteShapeFull_of_none {coll : List Shape} {uid id : String}
    (h : coll.find? (fun sh => sh.id == id) = none) :
    deleteShapeFull coll uid id = remoteRemove coll id := by
  unfold deleteShapeFull
  rw [h]

theorem deleteShapeFull_free {coll : List Shape} {uid id : String}
    {s : Shape} (h : coll.find? (fun sh => sh.id == id) = some s)
    (hc : (s.isLocked && !(s.lockedBy == some uid)) = false) :
    deleteShapeFull coll uid id = remoteRemove coll id := by
  unfold deleteShapeFull
  rw [h]
  simp [hc]

/-- C9: the delete path is idempotent — deleting the same id twice in a
row (the echo having synchronized the local list in between), or
deleting an id that is already absent, is error-free (the function is
total) and leaves the collection exactly as a single delete does. -/
theorem C9_delete_idempotent (coll : List Shape) (uid id : String) :
    deleteShapeFull (deleteShapeFull coll uid id) uid id =
      deleteShapeFull coll uid id := by
  cases h : coll.find? (fun sh => sh.id == id) with
  | none =>
    rw [deleteShapeFull_of_none h,
      deleteShapeFull_of_none (remoteRemove_find? coll id),
      remoteRemove_idem]
  | some s =>
    cases hc : (s.isLocked && !(s.lockedBy == some uid)) with
    | true => rw [deleteShapeFull_blocked h hc, deleteShapeFull_blocked h hc]
    | false =>
      rw [deleteShapeFull_free h hc,
        deleteShapeFull_of_none (remoteRemove_find? coll id),
        remoteRemove_idem]

/-! ## C10 — guarded no-ops without an authenticated user -/

/-- C10: with no authenticated user (or no user id) — the `userId`
argument is `none` — every mutating operation of the sync adapter is a
no-op at the public interface: `addShape`, `updateShape` and
`deleteShape` issue no remote call, and `lockShape` resolves `false`
without issuing a lock call (and without touching the timer map). -/
theorem C10_no_user_no_calls (shapes : List Shape) (s : Shape)
    (shapeId : String) (u : ShapeUpdate) (now : Nat)
    (timers : List (String × Nat)) :
    addShape₁ none s now = [] ∧
    updateShape₁ shapes none shapeId u = [] ∧
    deleteShape₁ shapes none shapeId = [] ∧
    lockShape₁ shapes none shapeId now timers = ⟨false, [], timers⟩ ∧
    updateShape₂ none shapeId u = [] ∧
    deleteShape₂ none shapeId = [] :=
  ⟨rfl, rfl, rfl, rfl, rfl, rfl⟩

/-! ## C3 — restore re-entrancy guard -/

/-- C3: while a restore triggered by `undo`/`redo` is in flight
(`isRestoringRef` raised, cleared only by the 100 ms settle timeout),
every `pushState` call — in either revision — returns without touching
the engine; and `undo` itself never appends to the history stack, so it
cannot create an entry reachable by a subsequent `undo`. -/
theorem C3_push_suppressed_while_restoring (e : HistoryEngine)
    (snap : HistoryState) (hinv : histInv e) :
    (e.isRestoring = true → pushState₁ e snap = e ∧ pushState₂ e snap = e) ∧
    (undoE e).1.history = e.history ∧
    (0 < e.currentIndex →
      (undoE e).1.isRestoring = true ∧
      pushState₁ (undoE e).1 snap = (undoE e).1 ∧
      pushState₂ (undoE e).1 snap = (undoE e).1) := by
  refine ⟨?_, ?_, ?_⟩
  · intro h
    constructor
    · unfold pushState₁; simp [h]
    · unfold pushState₂; simp [h]
  · unfold undoE
    split
    · split <;> rfl
    · rfl
  · intro hpos
    have hlt : e.currentIndex - 1 < e.history.length := by
      have := hinv.2.2; omega
    have hsome : e.history[e.currentIndex - 1]? =
        some (e.history.get ⟨e.currentIndex - 1, hlt⟩) :=
      List.getElem?_eq_getElem hlt
    have hu : (undoE e).1 =
        { e with currentIndex := e.currentIndex - 1, isRestoring := true } := by
      unfold undoE
      rw [if_pos hpos, hsome]
    rw [hu]
    exact ⟨rfl, by unfold pushState₁; simp, by unfold pushState₂; simp⟩

/-- A two-entry engine with the cursor on the newer entry. -/
def engineTwo : HistoryEngine :=
  { history := [snapEmpty, ⟨[rectRed], ["a"]⟩], currentIndex := 1,
    isRestoring := false }

theorem C3_witness :
    (undoE engineTwo).1.history = engineTwo.history ∧
    (undoE engineTwo).1.isRestoring = true ∧
    pushState₂ (undoE engineTwo).1 snapEmpty = (undoE engineTwo).1 := by
  have h := C3_push_suppressed_while_restoring engineTwo snapEmpty
    (by decide)
  exact ⟨h.2.1, (h.2.2 (by decide)).1, (h.2.2 (by decide)).2.2⟩

/-! ## C6 — history stack bounds -/

/-- C6 (amended): starting from the initialized engine, every sequence of
second-revision `pushState`/`undo`/`redo` operations preserves the stack
invariant — nonempty, at most `MAX_HISTORY` entries, cursor within
`[0, length - 1]` — and a push landing on a full stack drops exactly the
oldest entry, leaving the cursor on the (shifted) last position. The
first-revision `pushState` does not cap the stored stack; see the
counterexample. -/
theorem C6_history_stack_invariant (s0 : HistoryState) (ops : List HistOp)
    (e : HistoryEngine) (snap : HistoryState)
    (hnr : e.isRestoring = false)
    (hlen : e.history.length = MAX_HISTORY)
    (hidx : e.currentIndex = MAX_HISTORY - 1) :
    histInv (runE (initEngine s0) ops) ∧
    (pushState₂ e snap).history = e.history.tail ++ [snap] ∧
    (pushState₂ e snap).currentIndex = MAX_HISTORY - 1 := by
  refine ⟨histInv_run (histInv_init s0) ops, ?_⟩
  obtain ⟨a, t, hhist⟩ := List.exists_cons_of_ne_nil
    (l := e.history)
    (by intro hnil; rw [hnil] at hlen; simp [MAX_HISTORY] at hlen)
  have htake : e.history.take (e.currentIndex + 1) = e.history := by
    apply List.take_of_length_le
    rw [hlen, hidx]
    decide
  have hlen1 : (e.history.take (e.currentIndex + 1) ++ [snap]).length = 51 := by
    rw [htake, List.length_append, hlen]
    simp [MAX_HISTORY]
  have hcap : MAX_HISTORY <
      (e.history.take (e.currentIndex + 1) ++ [snap]).length := by
    rw [hlen1]; decide
  constructor
  · show (pushState₂ e snap).history = e.history.tail ++ [snap]
    unfold pushState₂
    rw [if_neg (by simp [hnr])]
    simp only [if_pos hcap]
    rw [htake, hhist, List.cons_append, List.tail_cons, List.tail_cons]
  · show (pushState₂ e snap).currentIndex = MAX_HISTORY - 1
    unfold pushState₂
    rw [if_neg (by simp [hnr])]
    simp only [if_pos hcap]
    rw [List.length_tail, hlen1]
    decide

/-- A full 50-entry engine with the cursor on the last entry. -/
def engineFull : HistoryEngine :=
  { history := List.replicate MAX_HISTORY snapEmpty,
    currentIndex := MAX_HISTORY - 1, isRestoring := false }

theorem C6_witness :
    histInv (runE (initEngine snapEmpty) [HistOp.push snapEmpty]) ∧
    (pushState₂ engineFull ⟨[rectRed], []⟩).history =
      engineFull.history.tail ++ [⟨[rectRed], []⟩] ∧
    (pushState₂ engineFull ⟨[rectRed], []⟩).currentIndex =
      MAX_HISTORY - 1 :=
  C6_history_stack_invariant snapEmpty [HistOp.push snapEmpty] engineFull
    ⟨[rectRed], []⟩ rfl (by decide) rfl

set_option maxRecDepth 8000 in
/-- C6 counterexample: with the first-revision `pushState`, 50 pushes
after initialization leave a stored stack of 51 entries — the
`MAX_HISTORY = 50` cap computed inside the `setCurrentIndex` updater is
never applied to the stack actually stored by `setHistory`. -/
theorem C6_counterexample :
    ((List.range 50).foldl (fun e _ => pushState₁ e snapEmpty)
        (initEngine snapEmpty)).history.length = 51 ∧
    ¬ ((List.range 50).foldl (fun e _ => pushState₁ e snapEmpty)
        (initEngine snapEmpty)).history.length ≤ MAX_HISTORY := by
  constructor <;> decide

/-! ## C7 — snapshots are deep copies -/

theorem pushState₂_stores_value (e : HistoryEngine) (snap : HistoryState)
    (hnr : e.isRestoring = false) :
    ∃ pre, (pushState₂ e snap).history = pre ++ [snap] := by
  unfold pushState₂
  rw [if_neg (by simp [hnr])]
  cases htake : e.history.take (e.currentIndex + 1) with
  | nil =>
    refine ⟨[], ?_⟩
    simp [htake, MAX_HISTORY]
  | cons a t =>
    simp only [htake, List.cons_append]
    by_cases hcap : MAX_HISTORY < t.length + 1 + 1
    · exact ⟨t, by simp [hcap]⟩
    · exact ⟨a :: t, by simp [hcap]⟩

theorem worldMutStep_engine (w : World) (op : MutOp) :
    (worldMutStep w op).engine = w.engine := by
  cases op <;> rfl

theorem foldl_mut_engine (w : World) (ops : List MutOp) :
    (ops.foldl worldMutStep w).engine = w.engine := by
  induction ops generalizing w with
  | nil => rfl
  | cons op ops ih => rw [List.foldl_cons, ih, worldMutStep_engine]

/-- C7: the snapshot stored by `pushState` (and the one stored by
initialization) is the dereferenced *value* of the live reference list
and selection at call time — the embedding of
`JSON.parse(JSON.stringify(currentShapes))` / `[...selectedIds]` — and
no later in-place mutation of a shape object, replacement of the live
list, or change of selection alters any stored history entry. -/
theorem C7_snapshots_deep_copies (w : World) (ops : List MutOp)
    (hnr : w.engine.isRestoring = false) :
    (∃ pre, (worldPush w).engine.history =
      pre ++ [⟨derefAll w.heap w.live, w.selection⟩]) ∧
    (ops.foldl worldMutStep (worldPush w)).engine = (worldPush w).engine ∧
    (worldInit w).engine.history =
      [⟨derefAll w.heap w.live, w.selection⟩] ∧
    (ops.foldl worldMutStep (worldInit w)).engine = (worldInit w).engine :=
  ⟨pushState₂_stores_value w.engine _ hnr,
   foldl_mut_engine (worldPush w) ops, rfl,
   foldl_mut_engine (worldInit w) ops⟩

/-- A concrete world: one red rectangle on the heap, referenced by the
live list, nothing selected, freshly initialized history. -/
def worldRect : World :=
  { heap := [rectRed], live := [0], selection := [],
    engine := initEngine ⟨[rectRed], []⟩ }

theorem C7_witness :
    (∃ pre, (worldPush worldRect).engine.history =
      pre ++ [⟨derefAll worldRect.heap worldRect.live,
        worldRect.selection⟩]) ∧
    (([MutOp.mutate 0 (fun s => { s with x := 999 })].foldl worldMutStep
      (worldPush worldRect)).engine = (worldPush worldRect).engine) := by
  have h := C7_snapshots_deep_copies worldRect
    [MutOp.mutate 0 (fun s => { s with x := 999 })] rfl
  exact ⟨h.1, h.2.1⟩

/-! ## C2 — undo does not restore the shape collection -/

/-- The state after attaching with an empty canvas. -/
def appStart : AppState :=
  { shapes := [], selectedIds := [], engine := initEngine ⟨[], []⟩ }

/-- C2 (failing input): from `S0 = []`, commit one creation (`n = 1`,
shape `rectRed`) and call `undo()`. The history engine hands the
pre-mutation snapshot `⟨[], []⟩` to the restore callback, but the
`CanvasContext.tsx` callback restores only the selection, so the shape
collection stays `[rectRed]` instead of returning to `S0 = []`. -/
theorem C2_undo_leaves_shapes :
    (undoE (commitMutation appStart [rectRed]).engine).2 =
      some ⟨[], []⟩ ∧
    (appUndo (commitMutation appStart [rectRed])).shapes = [rectRed] ∧
    appStart.shapes = [] ∧
    (appUndo (commitMutation appStart [rectRed])).shapes ≠
      appStart.shapes := by
  refine ⟨by decide, by decide, rfl, by decide⟩

/-! ## C4 — destructive operations on a locked shape -/

/-- C4 (amended): in the first revision, `updateShape` and `deleteShape`
on a shape locked by another user are rejected — no remote call, no
error (the operations are total), local state untouched; in the second
revision the lock check was removed and the remote call is issued
regardless, rejection being delegated to the UI layer. -/
theorem C4_locked_rejection (shapes : List Shape)
    (uid other shapeId : String) (u : ShapeUpdate) (s : Shape)
    (now t : Nat)
    (hfind : shapes.find? (fun sh => sh.id == shapeId) = some s)
    (hlocked : s.isLocked = true)
    (hby : s.lockedBy = some other)
    (hne : other ≠ uid)
    (_hat : s.lockedAt = some t)
    (_hfresh : (now : Int) - (t : Int) ≤ 10000) :
    updateShape₁ shapes (some uid) shapeId u = [] ∧
    deleteShape₁ shapes (some uid) shapeId = [] ∧
    updateShape₂ (some uid) shapeId u =
      [RemoteCall.update shapeId (setLastModified u uid)] ∧
    deleteShape₂ (some uid) shapeId = [RemoteCall.remove shapeId] := by
  have hcond : (s.isLocked && !(s.lockedBy == some uid)) = true := by
    simp [hlocked, hby, hne]
  refine ⟨?_, ?_, rfl, rfl⟩
  · simp [updateShape₁, hfind, hcond]
  · simp [deleteShape₁, hfind, hcond]

theorem C4_witness :
    updateShape₁ [shapeLockedA] (some "userB") "s1" moveUpdate = [] ∧
    deleteShape₁ [shapeLockedA] (some "userB") "s1" = [] := by
  have h := C4_locked_rejection [shapeLockedA] "userB" "userA" "s1"
    moveUpdate shapeLockedA 2000 1000 (by decide) (by decide) (by decide)
    (by decide) (by decide) (by decide)
  exact ⟨h.1, h.2.1⟩

/-- C4 counterexample: `shapeLockedA` is freshly locked by `userA`
(locked at 1000 ms, observed at 2000 ms), yet the second-revision
`updateShape`/`deleteShape` called by `userB` issue their remote calls —
the claim's "no remote call is made" is false for the second revision. -/
theorem C4_counterexample :
    shapeLockedA.isLocked = true ∧
    shapeLockedA.lockedBy = some "userA" ∧
    ((2000 : Int) - (1000 : Int) ≤ 10000) ∧
    updateShape₂ (some "userB") "s1" moveUpdate ≠ [] ∧
    deleteShape₂ (some "userB") "s1" ≠ [] := by
  refine ⟨rfl, rfl, by decide, by decide, by decide⟩

/-! ## C5 — same-tick lock contention -/

/-- C5 (amended): when two distinct clients select the same unlocked
shape in the same tick, the remote layer's conditional write grants the
lock to exactly the first request it serializes — at most one client
ends the round in `LockedByMe` — but both clients' local selections
contain the shape, because `selectShape` sets the selection without
awaiting the lock outcome. -/
theorem C5_at_most_one_lock_winner (coll : List Shape)
    (shapeId uidF uidS : String) (now : Nat) (s : Shape)
    (hfind : coll.find? (fun sh => sh.id == shapeId) = some s)
    (hunlocked : s.isLocked = false)
    (hne : uidF ≠ uidS) :
    (selectRound coll shapeId uidF uidS now).firstGranted = true ∧
    (selectRound coll shapeId uidF uidS now).secondGranted = false ∧
    isLockedByMe (selectRound coll shapeId uidF uidS now).finalColl
      shapeId uidF = true ∧
    isLockedByMe (selectRound coll shapeId uidF uidS now).finalColl
      shapeId uidS = false ∧
    ¬ (isLockedByMe (selectRound coll shapeId uidF uidS now).finalColl
        shapeId uidF = true ∧
       isLockedByMe (selectRound coll shapeId uidF uidS now).finalColl
        shapeId uidS = true) ∧
    (selectRound coll shapeId uidF uidS now).selSecond = [shapeId] := by
  have hs : (s.id == shapeId) = true := by
    have h := List.find?_some hfind
    simpa using h
  have hwrite : remoteAcquireLock coll shapeId uidF now =
      (coll.map (applyLockWrite shapeId uidF now), true) := by
    unfold remoteAcquireLock
    rw [hfind]
    simp [hunlocked]
  have hid : ∀ a : Shape,
      ((applyLockWrite shapeId uidF now a).id == shapeId) =
        (a.id == shapeId) := by
    intro a
    unfold applyLockWrite
    by_cases h : (a.id == shapeId) = true <;> simp [h]
  have happ : applyLockWrite shapeId uidF now s =
      { s with
          isLocked := true
          lockedBy := some uidF
          lockedAt := some now } := by
    unfold applyLockWrite
    rw [if_pos hs]
  have hfind2 : (coll.map (applyLockWrite shapeId uidF now)).find?
      (fun sh => sh.id == shapeId) =
      some (applyLockWrite shapeId uidF now s) := by
    rw [find?_map_of_pred_inv _ _ _ hid, hfind, Option.map_some']
  have hstale : lockIsStale (applyLockWrite shapeId uidF now s) now =
      false := by
    rw [happ]
    unfold lockIsStale
    by_cases h0 : now = 0 <;> simp [h0]
  have hsecond : remoteAcquireLock
      (coll.map (applyLockWrite shapeId uidF now)) shapeId uidS now =
      (coll.map (applyLockWrite shapeId uidF now), false) := by
    unfold remoteAcquireLock
    rw [hfind2]
    have hcond : ((applyLockWrite shapeId uidF now s).isLocked &&
        !((applyLockWrite shapeId uidF now s).lockedBy == some uidS) &&
        !(lockIsStale (applyLockWrite shapeId uidF now s) now)) = true := by
      rw [hstale, happ]
      simp [hne]
    simp [hcond]
  have hfirstcoll : (remoteAcquireLock coll shapeId uidF now).1 =
      coll.map (applyLockWrite shapeId uidF now) := by
    rw [hwrite]
  have hA : isLockedByMe (coll.map (applyLockWrite shapeId uidF now))
      shapeId uidF = true := by
    unfold isLockedByMe
    rw [hfind2, happ]
    simp
  have hB : isLockedByMe (coll.map (applyLockWrite shapeId uidF now))
      shapeId uidS = false := by
    unfold isLockedByMe
    rw [hfind2, happ]
    simp [hne]
  refine ⟨?_, ?_, ?_, ?_, ?_, rfl⟩
  · show (remoteAcquireLock coll shapeId uidF now).2 = true
    rw [hwrite]
  · show (remoteAcquireLock (remoteAcquireLock coll shapeId uidF now).1
      shapeId uidS now).2 = false
    rw [hfirstcoll, hsecond]
  · show isLockedByMe (remoteAcquireLock
      (remoteAcquireLock coll shapeId uidF now).1 shapeId uidS now).1
      shapeId uidF = true
    rw [hfirstcoll, hsecond]
    exact hA
  · show isLockedByMe (remoteAcquireLock
      (remoteAcquireLock coll shapeId uidF now).1 shapeId uidS now).1
      shapeId uidS = false
    rw [hfirstcoll, hsecond]
    exact hB
  · intro hcontra
    have hB2 := hcontra.2
    rw [show isLockedByMe (selectRound coll shapeId uidF uidS now).finalColl
        shapeId uidS = isLockedByMe (remoteAcquireLock
        (remoteAcquireLock coll shapeId uidF now).1 shapeId uidS now).1
        shapeId uidS from rfl, hfirstcoll, hsecond, hB] at hB2
    exact Bool.false_ne_true hB2

theorem C5_witness :
    (selectRound [shapeFree] "s1" "userA" "userB" 2000).firstGranted =
      true ∧
    (selectRound [shapeFree] "s1" "userA" "userB" 2000).secondGranted =
      false ∧
    isLockedByMe (selectRound [shapeFree] "s1" "userA" "userB"
      2000).finalColl "s1" "userA" = true := by
  have h := C5_at_most_one_lock_winner [shapeFree] "s1" "userA" "userB"
    2000 shapeFree (by decide) (by decide) (by decide)
  exact ⟨h.1, h.2.1, h.2.2.1⟩

/-- C5 counterexample: in the concrete round on an unlocked `s1`,
`userB`'s lock request is denied and `userB` does not end in
`LockedByMe`, yet `userB`'s selection still contains `s1` — the claim's
"the losing client's selection does not contain s after both attempts
resolve" is false, because `selectShape` never awaits the lock result. -/
theorem C5_counterexample :
    (selectRound [shapeFree] "s1" "userA" "userB" 2000).secondGranted =
      false ∧
    isLockedByMe (selectRound [shapeFree] "s1" "userA" "userB"
      2000).finalColl "s1" "userB" = false ∧
    "s1" ∈ (selectRound [shapeFree] "s1" "userA" "userB" 2000).selSecond := by
  refine ⟨by decide, by decide, by decide⟩
